import Mathlib

set_option maxRecDepth 100000
set_option maxHeartbeats 1000000

/-!
# Verification of DMARCer's archive guard and XML report parser

This development embeds the two security-critical modules of the DMARCer
repository in Lean:

* `src/xml_parser.rs` — `parse_dmarc_xml` and its helpers
  (`parse_policy_published`, `parse_dkim`, `parse_spf`), together with the
  DOCTYPE pre-pass and the depth-limited event loop. The quick_xml reader is
  embedded as a tokenizer producing a list of events; `Reader::read_text`
  (which consumes everything up to the matching end tag and yields the
  element's text) is embedded as the `inText` mode of the event-loop state
  machine. The nested Rust loops (`loop { match reader.read_event() ... }`)
  become a single step function over an explicit mode, which is the direct
  defunctionalization of those loops.
* `src/zip_handler.rs` — `extract_zip`'s `.zip` branch: the per-entry
  path-traversal, filename-length, compression-ratio and decompressed-size
  checks, applied in source order over the archive's entry list.

Rust strings are embedded as `List Char`; `u8`/`u32` parsing carries the
explicit `< 2^8` / `< 2^32` bounds of the machine types. The f64
compression-ratio comparison is embedded exactly over `ℚ` (the source
guards the division by `compressed_size > 0`, so no division by zero
arises). Error values keep the source's distinguishing messages.
-/

/-- Rust `String` / `&str`, embedded as a list of characters. -/
abbrev Str := List Char

/-- Convenience conversion from a Lean string literal. -/
def chars (s : String) : Str := s.toList

/-- ASCII whitespace, as trimmed by Rust's `str::trim` on the inputs at hand. -/
def wsChar (c : Char) : Bool :=
  (c = ' ') || (c = '\t') || (c = '\n') || (c = '\r')

/-- Rust `str::trim`: drop whitespace from both ends. -/
def trimStr (s : Str) : Str :=
  ((s.dropWhile wsChar).reverse.dropWhile wsChar).reverse

/-- Rust `str::to_lowercase` (ASCII range, which is all the source compares). -/
def toLowerStr (s : Str) : Str := s.map Char.toLower

/-- Accumulate a digit string into a value; `none` on any non-digit. -/
def digitsAux : Str → Nat → Option Nat
  | [], acc => some acc
  | c :: r, acc => if c.isDigit then digitsAux r (acc * 10 + (c.toNat - 48)) else none

/-- Value of a non-empty all-digit string, `none` otherwise. -/
def digitsVal : Str → Option Nat
  | [] => none
  | c :: r => digitsAux (c :: r) 0

/-- Rust `str::parse::<uN>()`: optional leading `+`, at least one digit,
value below the type's bound (otherwise an overflow error). -/
def parseUnsigned (bound : Nat) (s : Str) : Option Nat :=
  match digitsVal (match s with | '+' :: r => r | _ => s) with
  | some v => if v < bound then some v else none
  | none => none

/-- Rust `str::parse::<u32>()`. -/
def parse_u32 (s : Str) : Option Nat := parseUnsigned 4294967296 s

/-- Rust `str::parse::<u8>()`. -/
def parse_u8 (s : Str) : Option Nat := parseUnsigned 256 s

/-- First index at which `pat` occurs in `s` — Rust `str::find(pat)`. -/
def findSubstr (pat : Str) : Str → Option Nat
  | [] => if pat = [] then some 0 else none
  | c :: r =>
    if pat.isPrefixOf (c :: r) then some 0
    else (findSubstr pat r).map (· + 1)

/-- Number of positions at which `pat` occurs in `s`. For the pattern
`"<!ENTITY"` this agrees with Rust's non-overlapping `matches(pat).count()`,
because no proper prefix of that pattern is also a suffix (its `<` occurs
only at position 0), so occurrences can never overlap. -/
def countOcc (pat : Str) : Str → Nat
  | [] => 0
  | c :: r => (if pat.isPrefixOf (c :: r) then 1 else 0) + countOcc pat r

/- ### Data model (src/models.rs) -/

/-- `DkimVerdict` in src/models.rs. -/
inductive DkimVerdict where
  | none | pass | fail | neutral
  deriving DecidableEq, Repr

/-- `SpfVerdict` in src/models.rs. -/
inductive SpfVerdict where
  | none | pass | fail | neutral
  deriving DecidableEq, Repr

/-- `AlignmentMode` in src/models.rs. -/
inductive AlignmentMode where
  | Relaxed | Strict
  deriving DecidableEq, Repr

/-- `PolicyType` in src/models.rs. -/
inductive PolicyType where
  | None | Quarantine | Reject
  deriving DecidableEq, Repr

/-- `DmarcPolicy` in src/models.rs; `pct` is a Rust `u8`. -/
structure DmarcPolicy where
  domain : Str
  adkim : AlignmentMode
  aspf : AlignmentMode
  policy : PolicyType
  pct : Nat
  deriving DecidableEq, Repr

/-- `PolicyEvaluated` in src/models.rs. -/
structure PolicyEvaluated where
  disposition : Str
  dkim : DkimVerdict
  spf : SpfVerdict
  deriving DecidableEq, Repr

/-- `DkimResult` in src/models.rs. -/
structure DkimResult where
  domain : Str
  selector : Str
  result : DkimVerdict
  deriving DecidableEq, Repr

/-- `SpfResult` in src/models.rs. -/
structure SpfResult where
  domain : Str
  scope : Str
  result : SpfVerdict
  deriving DecidableEq, Repr

/-- `DateRange` in src/models.rs (`begin`/`end` are `i64`). -/
structure DateRange where
  begin_ : Int
  end_ : Int
  deriving DecidableEq, Repr

/-- `DmarcRecord` in src/models.rs. -/
structure DmarcRecord where
  source_ip : Str
  count : Nat
  policy_evaluated : PolicyEvaluated
  header_from : Str
  envelope_from : Option Str
  dkim : List DkimResult
  spf : SpfResult
  date_range : DateRange
  deriving DecidableEq, Repr

/-- `FromStr for DkimVerdict` in src/models.rs (lowercased closed-set match). -/
def dkimVerdictFromStr (s : Str) : Option DkimVerdict :=
  let t := toLowerStr s
  if t = chars "pass" then some .pass
  else if t = chars "fail" then some .fail
  else if t = chars "neutral" then some .neutral
  else if t = chars "none" then some .none
  else none

/-- `FromStr for SpfVerdict` in src/models.rs. -/
def spfVerdictFromStr (s : Str) : Option SpfVerdict :=
  let t := toLowerStr s
  if t = chars "pass" then some .pass
  else if t = chars "fail" then some .fail
  else if t = chars "neutral" then some .neutral
  else if t = chars "none" then some .none
  else none

/- ### Parser errors (src/error.rs, as produced by src/xml_parser.rs) -/

/-- `DmarcError` as produced by the parser: every parser-side failure in
src/xml_parser.rs is `DmarcError::Xml(quick_xml::Error::UnexpectedEof(msg))`,
distinguished by its message. -/
inductive DmarcError where
  | Xml (msg : Str)
  deriving DecidableEq, Repr

/-- The "Recursive entities detected" rejection (src/xml_parser.rs line 35). -/
def recursiveEntitiesErr : DmarcError := .Xml (chars "Recursive entities detected")

/-- The "XML recursion depth limit exceeded" rejection (line 72). -/
def depthLimitErr : DmarcError := .Xml (chars "XML recursion depth limit exceeded")

/-- quick_xml's `UnexpectedEof` from `read_text` reaching end-of-input before
the closing tag of `name`. -/
def unexpectedEofErr (name : Str) : DmarcError :=
  .Xml (chars "</" ++ name ++ chars ">")

/- ### DOCTYPE pre-pass (src/xml_parser.rs lines 30–49) -/

/-- The DOCTYPE pre-pass of `parse_dmarc_xml`: locate the first `<!DOCTYPE`,
the first subsequent `]>`, count `<!ENTITY` markers in that block; two or
more reject, otherwise the block is removed. Absent marker or unterminated
block leaves the text unchanged. -/
def cleanDoctype (s : Str) : Except DmarcError Str :=
  match findSubstr (chars "<!DOCTYPE") s with
  | Option.none => .ok s
  | some start =>
    let tail := s.drop start
    match findSubstr (chars "]>") tail with
    | Option.none => .ok s
    | some e =>
      let doctype := tail.take (e + 2)
      if 2 ≤ countOcc (chars "<!ENTITY") doctype then
        .error recursiveEntitiesErr
      else
        .ok (s.take start ++ tail.drop (e + 2))

deriving instance DecidableEq for Except

/- ### quick_xml events and tokenizer -/

/-- Events of the embedded quick_xml reader: `Event::Start`, `Event::End`,
`Event::Text` (already trimmed, per `trim_text(true)`), `Event::Empty`. -/
inductive XmlEvent where
  | start (name : Str)
  | endTag (name : Str)
  | text (s : Str)
  | selfClose (name : Str)
  deriving DecidableEq, Repr

/-- Tag name: the characters before the first whitespace or `/` of the raw
tag body, matching `BytesStart::name`. -/
def tagName (raw : Str) : Str :=
  raw.takeWhile fun c => !(wsChar c) && !(c == '/')

/-- Fuel-indexed scanner turning text into reader events. Processing
declarations, comments and DOCTYPE remnants are consumed and dropped (the
main loop ignores them via its catch-all arm); whitespace-only text is
skipped and text events are trimmed, matching `trim_text(true)`. -/
def tokenizeAux : Nat → Str → List XmlEvent
  | 0, _ => []
  | _, [] => []
  | fuel + 1, '<' :: r =>
    match r with
    | '/' :: r2 =>
      let raw := r2.takeWhile fun c => !(c == '>')
      let rest := (r2.dropWhile fun c => !(c == '>')).drop 1
      .endTag (tagName raw) :: tokenizeAux fuel rest
    | '!' :: r2 => tokenizeAux fuel ((r2.dropWhile fun c => !(c == '>')).drop 1)
    | '?' :: r2 => tokenizeAux fuel ((r2.dropWhile fun c => !(c == '>')).drop 1)
    | _ =>
      let raw := r.takeWhile fun c => !(c == '>')
      let rest := (r.dropWhile fun c => !(c == '>')).drop 1
      if raw.getLast? = some '/' then .selfClose (tagName raw) :: tokenizeAux fuel rest
      else .start (tagName raw) :: tokenizeAux fuel rest
  | fuel + 1, c :: r =>
    let txt := trimStr ((c :: r).takeWhile fun d => !(d == '<'))
    let rest := (c :: r).dropWhile fun d => !(d == '<')
    if txt = [] then tokenizeAux fuel rest
    else .text txt :: tokenizeAux fuel rest

/-- Tokenize a whole input; the fuel bound suffices since every event
consumes at least one character. -/
def tokenize (s : Str) : List XmlEvent := tokenizeAux (s.length + 1) s

/- ### The event loop of `parse_dmarc_xml` (src/xml_parser.rs lines 51–143)

The Rust function is a main `loop` that, on certain start tags, either calls
`reader.read_text` (consuming everything through the matching end tag) or
delegates to the sub-loops `parse_policy_published` / `parse_dkim` /
`parse_spf` (each consuming events until its own closing tag or EOF).
These nested loops are embedded as one step function over an explicit mode:
`main` is the main loop, `inPolicy`/`inDkim`/`inSpf` are the sub-loops with
their local accumulators, and `inText` is an in-progress `read_text` call
remembering where its result is assigned. The depth counter lives only in
`main`, exactly as in the source, where the sub-loops and `read_text` never
touch `depth`. -/

/-- Destination of a main-loop `read_text` result. -/
inductive MainField where
  | mSourceIp | mCount | mHeaderFrom
  deriving DecidableEq, Repr

/-- Destination of a `parse_policy_published` `read_text` result. -/
inductive PolField where
  | fDomain | fAdkim | fAspf | fP | fPct
  deriving DecidableEq, Repr

/-- Destination of a `parse_dkim` `read_text` result. -/
inductive DkimField where
  | dDomain | dSelector | dResult
  deriving DecidableEq, Repr

/-- Destination of a `parse_spf` `read_text` result. -/
inductive SpfField where
  | sDomain | sScope | sResult
  deriving DecidableEq, Repr

/-- Continuation of an in-progress `read_text`: which loop it returns to and
which field receives the text. -/
inductive TextRet where
  | toRecord (f : MainField)
  | toPolicy (acc : DmarcPolicy) (f : PolField)
  | toDkim (acc : DkimResult) (f : DkimField)
  | toSpf (acc : SpfResult) (f : SpfField)
  deriving DecidableEq, Repr

/-- Which of the nested source loops is currently consuming events. -/
inductive PMode where
  | main
  | inPolicy (acc : DmarcPolicy)
  | inDkim (acc : DkimResult)
  | inSpf (acc : SpfResult)
  | inText (name : Str) (nest : Nat) (acc : Str) (ret : TextRet)
  deriving DecidableEq, Repr

/-- The mutable state of `parse_dmarc_xml`: `records`, `policy`,
`current_record`, `depth`, plus the control mode. -/
structure PState where
  records : List DmarcRecord
  policy : DmarcPolicy
  current : Option DmarcRecord
  depth : Nat
  mode : PMode
  deriving DecidableEq, Repr

/-- The initial `policy` value of `parse_dmarc_xml` (lines 55–61), which is
also the initial accumulator of `parse_policy_published` (lines 147–151). -/
def initPolicy : DmarcPolicy := ⟨[], .Relaxed, .Relaxed, .None, 100⟩

/-- The fresh record built at a `<record>` start tag (lines 78–91). -/
def newRecord : DmarcRecord :=
  ⟨[], 0, ⟨[], .none, .none⟩, [], Option.none, [], ⟨[], [], .none⟩, ⟨0, 0⟩⟩

/-- `let max_depth = 20` (line 65). -/
def max_depth : Nat := 20

/-- Alignment text handling in `parse_policy_published`:
`to_lowercase().starts_with("s")` selects `Strict`, anything else `Relaxed`. -/
def alignmentOfText (t : Str) : AlignmentMode :=
  match toLowerStr t with
  | 's' :: _ => .Strict
  | _ => .Relaxed

/-- Disposition text handling in `parse_policy_published` (closed-set match
on the lowercased text, defaulting to `None`). -/
def policyOfText (t : Str) : PolicyType :=
  let l := toLowerStr t
  if l = chars "reject" then .Reject
  else if l = chars "quarantine" then .Quarantine
  else .None

/-- Field assignment in `parse_policy_published` (lines 156–178). -/
def updatePolicyField (acc : DmarcPolicy) (f : PolField) (t : Str) : DmarcPolicy :=
  match f with
  | .fDomain => { acc with domain := t }
  | .fAdkim => { acc with adkim := alignmentOfText t }
  | .fAspf => { acc with aspf := alignmentOfText t }
  | .fP => { acc with policy := policyOfText t }
  | .fPct => { acc with pct := (parse_u8 t).getD 100 }

/-- Field assignment in `parse_dkim` (lines 210–219). -/
def updateDkimField (acc : DkimResult) (f : DkimField) (t : Str) : DkimResult :=
  match f with
  | .dDomain => { acc with domain := t }
  | .dSelector => { acc with selector := t }
  | .dResult => { acc with result := (dkimVerdictFromStr t).getD .none }

/-- Field assignment in `parse_spf` (lines 245–254). -/
def updateSpfField (acc : SpfResult) (f : SpfField) (t : Str) : SpfResult :=
  match f with
  | .sDomain => { acc with domain := t }
  | .sScope => { acc with scope := t }
  | .sResult => { acc with result := (spfVerdictFromStr t).getD .none }

/-- Field assignment in the main loop (lines 96–110). -/
def updateRecordField (r : DmarcRecord) (f : MainField) (t : Str) : DmarcRecord :=
  match f with
  | .mSourceIp => { r with source_ip := t }
  | .mCount => { r with count := (parse_u32 t).getD 0 }
  | .mHeaderFrom => { r with header_from := t }

/-- Completion of a `read_text` call: the text is trimmed and assigned to the
destination field, and control returns to the loop that issued the call. -/
def deliverText (st : PState) (raw : Str) (ret : TextRet) : PState :=
  let t := trimStr raw
  match ret with
  | .toRecord f => { st with mode := .main, current := st.current.map (updateRecordField · f t) }
  | .toPolicy acc f => { st with mode := .inPolicy (updatePolicyField acc f t) }
  | .toDkim acc f => { st with mode := .inDkim (updateDkimField acc f t) }
  | .toSpf acc f => { st with mode := .inSpf (updateSpfField acc f t) }

/-- One reader event, processed by whichever source loop is active. -/
def step (st : PState) (e : XmlEvent) : Except DmarcError PState :=
  match st.mode with
  | .main =>
    match e with
    | .start n =>
      let d := st.depth + 1
      if max_depth < d then .error depthLimitErr
      else if n = chars "record" then
        .ok { st with depth := d, current := some newRecord }
      else if n = chars "policy_published" then
        .ok { st with depth := d, mode := .inPolicy initPolicy }
      else if n = chars "source_ip" then
        .ok { st with
              depth := d
              mode := if st.current.isSome then .inText n 0 [] (.toRecord .mSourceIp) else .main }
      else if n = chars "count" then
        .ok { st with
              depth := d
              mode := if st.current.isSome then .inText n 0 [] (.toRecord .mCount) else .main }
      else if n = chars "header_from" then
        .ok { st with
              depth := d
              mode := if st.current.isSome then .inText n 0 [] (.toRecord .mHeaderFrom) else .main }
      else if n = chars "dkim" then
        .ok { st with
              depth := d
              mode := if st.current.isSome then .inDkim ⟨[], [], .none⟩ else .main }
      else if n = chars "spf" then
        .ok { st with
              depth := d
              mode := if st.current.isSome then .inSpf ⟨[], [], .none⟩ else .main }
      else .ok { st with depth := d }
    | .endTag n =>
      if n = chars "record" then
        match st.current with
        | some r =>
          .ok { st with
                records := st.records ++ [r]
                current := Option.none
                depth := st.depth - 1 }
        | Option.none => .ok { st with depth := st.depth - 1 }
      else .ok { st with depth := st.depth - 1 }
    | .text _ => .ok st
    | .selfClose _ => .ok st
  | .inPolicy acc =>
    match e with
    | .start n =>
      if n = chars "domain" then .ok { st with mode := .inText n 0 [] (.toPolicy acc .fDomain) }
      else if n = chars "adkim" then .ok { st with mode := .inText n 0 [] (.toPolicy acc .fAdkim) }
      else if n = chars "aspf" then .ok { st with mode := .inText n 0 [] (.toPolicy acc .fAspf) }
      else if n = chars "p" then .ok { st with mode := .inText n 0 [] (.toPolicy acc .fP) }
      else if n = chars "pct" then .ok { st with mode := .inText n 0 [] (.toPolicy acc .fPct) }
      else .ok st
    | .endTag n =>
      if n = chars "policy_published" then .ok { st with policy := acc, mode := .main }
      else .ok st
    | .text _ => .ok st
    | .selfClose _ => .ok st
  | .inDkim acc =>
    match e with
    | .start n =>
      if n = chars "domain" then .ok { st with mode := .inText n 0 [] (.toDkim acc .dDomain) }
      else if n = chars "selector" then .ok { st with mode := .inText n 0 [] (.toDkim acc .dSelector) }
      else if n = chars "result" then .ok { st with mode := .inText n 0 [] (.toDkim acc .dResult) }
      else .ok st
    | .endTag n =>
      if n = chars "dkim" then
        .ok { st with
              current := st.current.map (fun r => { r with dkim := r.dkim ++ [acc] })
              mode := .main }
      else .ok st
    | .text _ => .ok st
    | .selfClose _ => .ok st
  | .inSpf acc =>
    match e with
    | .start n =>
      if n = chars "domain" then .ok { st with mode := .inText n 0 [] (.toSpf acc .sDomain) }
      else if n = chars "scope" then .ok { st with mode := .inText n 0 [] (.toSpf acc .sScope) }
      else if n = chars "result" then .ok { st with mode := .inText n 0 [] (.toSpf acc .sResult) }
      else .ok st
    | .endTag n =>
      if n = chars "spf" then
        .ok { st with current := st.current.map (fun r => { r with spf := acc }), mode := .main }
      else .ok st
    | .text _ => .ok st
    | .selfClose _ => .ok st
  | .inText name nest acc ret =>
    match e with
    | .start n =>
      if n = name then .ok { st with mode := .inText name (nest + 1) acc ret }
      else .ok st
    | .text t => .ok { st with mode := .inText name nest (acc ++ t) ret }
    | .endTag n =>
      if n = name then
        if nest = 0 then .ok (deliverText st acc ret)
        else .ok { st with mode := .inText name (nest - 1) acc ret }
      else .ok st
    | .selfClose _ => .ok st

/-- End-of-input: the main loop and each sub-loop `break` with success (a
sub-loop's accumulated policy is committed, an open record is dropped with
its partial DKIM/SPF data), while an unfinished `read_text` is the one EOF
that errors. -/
def finalizeState (st : PState) : Except DmarcError (List DmarcRecord × DmarcPolicy) :=
  match st.mode with
  | .main => .ok (st.records, st.policy)
  | .inPolicy acc => .ok (st.records, acc)
  | .inDkim _ => .ok (st.records, st.policy)
  | .inSpf _ => .ok (st.records, st.policy)
  | .inText name _ _ _ => .error (unexpectedEofErr name)

/-- The event loop of `parse_dmarc_xml`. -/
def parseEventsLoop : List XmlEvent → PState → Except DmarcError (List DmarcRecord × DmarcPolicy)
  | [], st => finalizeState st
  | e :: rest, st =>
    match step st e with
    | .error er => .error er
    | .ok st' => parseEventsLoop rest st'

/-- The initial state of `parse_dmarc_xml` (lines 54–64). -/
def initState : PState := ⟨[], initPolicy, Option.none, 0, .main⟩

/-- The main pass of `parse_dmarc_xml` over an event stream. -/
def parseEvents (evs : List XmlEvent) : Except DmarcError (List DmarcRecord × DmarcPolicy) :=
  parseEventsLoop evs initState

/-- `parse_dmarc_xml` (src/xml_parser.rs line 25): DOCTYPE pre-pass, then the
depth-limited event loop over the tokenized remainder. -/
def parse_dmarc_xml (s : Str) : Except DmarcError (List DmarcRecord × DmarcPolicy) :=
  match cleanDoctype s with
  | .error e => .error e
  | .ok t => parseEvents (tokenize t)

/- ### Archive guard (src/zip_handler.rs) -/

/-- The extraction limits of `Config` (src/config.rs) used by `extract_zip`.
`max_compression_limit` embeds the f64 field `max_compression_ratio` as an
exact rational. -/
structure Config where
  max_file_size : Nat
  max_decompressed_size : Nat
  max_files_in_zip : Nat
  max_compression_limit : ℚ
  max_filename_length : Nat
  deriving DecidableEq, Repr

/-- One archive entry as `extract_zip` observes it: the stored name
(`file_in_zip.name()`), the metadata sizes (`compressed_size()`, `size()`,
both `u64`, with `Rat.divInt uncompressed compressed` as the exact value of
the f64 quotient `uncompressed as f64 / compressed as f64`), and the text
the entry decompresses to (`read_to_string`).
Names are embedded as character lists, so `name.length` plays the role of
the byte length `inner_name.len()` (they agree on ASCII names). -/
structure ZipEntry where
  name : Str
  compressed_size : Nat
  uncompressed_size : Nat
  content : Str
  deriving DecidableEq, Repr

/-- Errors of `extract_zip`. The first three `format` cases are
`DmarcError::Format` with the source's distinguishing messages
("Path traversal attempt detected: {name}", "Filename too long",
"Suspicious compression ratio: {ratio}" — the rendered f64 is elided);
`fileTooLarge` is `DmarcError::FileTooLarge` with its message, and
`tooManyFiles` is the ad-hoc "Too many files in archive" error. -/
inductive ExtractError where
  | pathTraversal (name : Str)
  | filenameTooLong
  | suspiciousCompression
  | fileTooLarge (msg : Str)
  | tooManyFiles
  | unsupportedFile
  deriving DecidableEq, Repr

/-- The path-traversal test of src/zip_handler.rs line 49: the stored name
contains `..` or starts with `/` or `\`. -/
def hasTraversal (name : Str) : Bool :=
  (findSubstr (chars "..") name).isSome ||
    (match name with
     | '/' :: _ => true
     | '\\' :: _ => true
     | _ => false)

/-- The per-entry loop of `extract_zip` (src/zip_handler.rs lines 45–70):
for each entry in order, check path traversal, then filename length, then
the compression ratio (only when the compressed size is positive), then the
declared uncompressed size; only after all checks pass is the entry's
content read and appended to the output. -/
def extractEntries (cfg : Config) : List ZipEntry → Except ExtractError (List Str)
  | [] => .ok []
  | e :: rest =>
    if hasTraversal e.name then .error (.pathTraversal e.name)
    else if cfg.max_filename_length < e.name.length then .error .filenameTooLong
    else if 0 < e.compressed_size ∧
        cfg.max_compression_limit < Rat.divInt e.uncompressed_size e.compressed_size then
      .error .suspiciousCompression
    else if cfg.max_decompressed_size < e.uncompressed_size then
      .error (.fileTooLarge (chars "Total decompressed size too large"))
    else
      match extractEntries cfg rest with
      | .error er => .error er
      | .ok rs => .ok (e.content :: rs)

/-- The `.zip` branch of `extract_zip` (src/zip_handler.rs lines 27–72):
the raw file-size bound, the archive entry-count bound, then the per-entry
loop. The extension dispatch and the `.gz`/`.xml` branches play no role in
the properties below and are elided. -/
def extract_zip (cfg : Config) (file_size : Nat) (entries : List ZipEntry) :
    Except ExtractError (List Str) :=
  if cfg.max_file_size < file_size then .error (.fileTooLarge (chars "File too large"))
  else if cfg.max_files_in_zip < entries.length then .error .tooManyFiles
  else extractEntries cfg entries

/- ### Auxiliary notions used to state the claims -/

/-- Events whose names the main loop of `parse_dmarc_xml` treats generically
(no record bookkeeping, no sub-scan, no `read_text`): such events are fully
handled by the main loop, which therefore counts every one of them in its
depth bookkeeping. -/
def genericEvent : XmlEvent → Bool
  | .start n =>
    !(n = chars "record" : Bool) && !(n = chars "policy_published" : Bool) &&
    !(n = chars "source_ip" : Bool) && !(n = chars "count" : Bool) &&
    !(n = chars "header_from" : Bool) && !(n = chars "dkim" : Bool) &&
    !(n = chars "spf" : Bool)
  | .endTag n => !(n = chars "record" : Bool)
  | .text _ => true
  | .selfClose _ => true

/-- Running the claimed depth discipline from depth `d`: increment at each
start tag, saturating decrement at each end tag, flag once the counter
passes `max_depth`. -/
def depthExceedsFrom (d : Nat) : List XmlEvent → Bool
  | [] => false
  | .start _ :: r => if max_depth < d + 1 then true else depthExceedsFrom (d + 1) r
  | .endTag _ :: r => depthExceedsFrom (d - 1) r
  | _ :: r => depthExceedsFrom d r

/-- Maximum well-nested element depth of an event stream (start tags open,
end tags close, other events are neutral). -/
def maxNestingAux (d m : Nat) : List XmlEvent → Nat
  | [] => m
  | .start _ :: r => maxNestingAux (d + 1) (max m (d + 1)) r
  | .endTag _ :: r => maxNestingAux (d - 1) m r
  | _ :: r => maxNestingAux d m r

/-- Maximum element nesting depth of an event stream. -/
def maxNesting (evs : List XmlEvent) : Nat := maxNestingAux 0 0 evs

/-- A document of nesting depth 27 whose depth-21..27 elements all sit inside
`<policy_published>`, where `parse_policy_published` consumes events without
any depth bookkeeping. -/
def deepPolicyDoc : Str :=
  chars "<feedback><policy_published>" ++ (List.replicate 25 (chars "<a>")).flatten ++
    (List.replicate 25 (chars "</a>")).flatten ++ chars "</policy_published></feedback>"

/-- Event form of a document whose `<count>` text and `<dkim>`/`<spf>`
`<result>` texts are arbitrary strings, inside one `<record>`. -/
def c7events (s1 s2 s3 : Str) : List XmlEvent :=
  [.start (chars "feedback"), .start (chars "record"),
   .start (chars "count"), .text s1, .endTag (chars "count"),
   .start (chars "dkim"), .start (chars "result"), .text s2, .endTag (chars "result"),
   .endTag (chars "dkim"),
   .start (chars "spf"), .start (chars "result"), .text s3, .endTag (chars "result"),
   .endTag (chars "spf"),
   .endTag (chars "record"), .endTag (chars "feedback")]

/-- The record produced from `c7events` when all three texts are malformed:
`count` 0, one DKIM result with verdict `none`, an SPF result with verdict
`none`. -/
def c7record : DmarcRecord :=
  ⟨[], 0, ⟨[], .none, .none⟩, [], Option.none, [⟨[], [], .none⟩], ⟨[], [], .none⟩, ⟨0, 0⟩⟩

/-- The `pct` value carried by a pending `read_text` continuation headed
back to `parse_policy_published` (0 otherwise). -/
def retPct : TextRet → Nat
  | .toPolicy acc _ => acc.pct
  | _ => 0

/-- The `pct` value carried by the active `parse_policy_published`
accumulator, if any (0 otherwise). -/
def polAccPct : PMode → Nat
  | .inPolicy acc => acc.pct
  | .inText _ _ _ ret => retPct ret
  | _ => 0

/-- Invariant: the committed policy and any policy accumulator in flight
hold a `u8`-ranged `pct`. -/
def pctInv (st : PState) : Prop :=
  st.policy.pct ≤ 255 ∧ polAccPct st.mode ≤ 255

section SanityChecks

example : trimStr (chars "  a b ") = chars "a b" := by decide
example : parse_u32 (chars "42") = some 42 := by decide
example : parse_u32 (chars "4294967296") = Option.none := by decide
example : parse_u8 (chars "200") = some 200 := by decide
example : parse_u8 (chars "abc") = Option.none := by decide
example : findSubstr (chars "..") (chars "a/../b") = some 2 := by decide
example : countOcc (chars "<!ENTITY") (chars "<!ENTITY a <!ENTITY b") = 2 := by decide
example : cleanDoctype (chars "<a><!DOCTYPE x [<!ENTITY e1><!ENTITY e2>]><b>")
    = .error recursiveEntitiesErr := by decide
example : cleanDoctype (chars "<a><!DOCTYPE x [<!ENTITY e1>]><b>")
    = .ok (chars "<a><b>") := by decide
example : cleanDoctype (chars "<a><!DOCTYPE x [<!ENTITY e1><!ENTITY e2>")
    = .ok (chars "<a><!DOCTYPE x [<!ENTITY e1><!ENTITY e2>") := by decide

example : tokenize (chars "<feedback><record><source_ip>1.2.3.4</source_ip></record></feedback>")
    = [.start (chars "feedback"), .start (chars "record"), .start (chars "source_ip"),
       .text (chars "1.2.3.4"), .endTag (chars "source_ip"), .endTag (chars "record"),
       .endTag (chars "feedback")] := by decide

example : parse_dmarc_xml (chars "<feedback><record><source_ip>1.2.3.4</source_ip><count>1</count><header_from>example.com</header_from></record></feedback>")
    = .ok ([{ newRecord with
              source_ip := chars "1.2.3.4"
              count := 1
              header_from := chars "example.com" }], initPolicy) := by decide

example : parse_dmarc_xml (chars "<feedback><policy_published><pct>200</pct></policy_published></feedback>")
    = .ok ([], { initPolicy with pct := 200 }) := by decide

example : parse_dmarc_xml (chars "<feedback><record></record><record><source_ip>")
    = .error (unexpectedEofErr (chars "source_ip")) := by decide

example : maxNesting (tokenize deepPolicyDoc) = 27 := by decide

example : parse_dmarc_xml deepPolicyDoc = .ok ([], initPolicy) := by decide

example :
    extract_zip ⟨100, 1000, 10, 1000, 64⟩ 50
      [⟨chars "a.xml", 1, 5000, chars "x"⟩] = .error .suspiciousCompression := by decide

example :
    extract_zip ⟨100, 1000, 10, 1000, 64⟩ 50
      [⟨chars "a.xml", 0, 900, chars "x"⟩, ⟨chars "b.xml", 10, 900, chars "y"⟩]
      = .ok [chars "x", chars "y"] := by decide

example :
    extract_zip ⟨100, 1000, 10, 1000, 64⟩ 50
      [⟨chars "../evil", 1, 1, chars "x"⟩] = .error (.pathTraversal (chars "../evil")) := by decide

end SanityChecks

/- ### Helper lemmas -/

/-- The exact value of the guarded f64 quotient: `Rat.divInt` on the two
sizes is the rational division of their casts, so the embedded ratio check
compares exactly the quantity `uncompressed / compressed`. -/
theorem divInt_eq_cast_div (u c : Nat) :
    Rat.divInt (u : Int) (c : Int) = (u : ℚ) / (c : ℚ) := by
  rw [Rat.divInt_eq_div]
  push_cast
  ring

/-- A successful `u8` parse is bounded by the type. -/
theorem parse_u8_le (s : Str) (v : Nat) (h : parse_u8 s = some v) : v ≤ 255 := by
  unfold parse_u8 parseUnsigned at h
  split at h
  · split at h
    · cases h
      omega
    · exact Option.noConfusion h
  · exact Option.noConfusion h

/-- The `pct` assignment `text.parse::<u8>().unwrap_or(100)` always lands in
the `u8` range. -/
theorem pct_value_le (t : Str) : (parse_u8 t).getD 100 ≤ 255 := by
  cases h : parse_u8 t with
  | none => simp
  | some v => simpa using parse_u8_le t v h

/-- The only error the step function itself can produce is the depth-limit
rejection; every other outcome of a single event is a new state. -/
theorem step_error (st : PState) (e : XmlEvent) (er : DmarcError)
    (h : step st e = .error er) : er = depthLimitErr := by
  unfold step at h
  dsimp only at h
  repeat' split at h
  all_goals first
    | exact Except.noConfusion h
    | exact (Except.error.inj h).symm

/-- A `read_text` end-of-input error is never the recursive-entities error:
its message starts with `</`. -/
theorem unexpectedEof_ne_recursive (name : Str) :
    unexpectedEofErr name ≠ recursiveEntitiesErr := by
  intro h
  have h1 : chars "</" ++ name ++ chars ">" = chars "Recursive entities detected" :=
    DmarcError.Xml.inj h
  have h2 : (chars "</" ++ name ++ chars ">").head? =
      (chars "Recursive entities detected").head? := by rw [h1]
  rw [show chars "</" = ['<', '/'] from rfl,
    show chars "Recursive entities detected" =
      'R' :: chars "ecursive entities detected" from rfl] at h2
  simp at h2

/-- The event loop never produces the recursive-entities error: that error
belongs exclusively to the DOCTYPE pre-pass. -/
theorem parseEventsLoop_ne_recursive (evs : List XmlEvent) :
    ∀ st : PState, parseEventsLoop evs st ≠ .error recursiveEntitiesErr := by
  induction evs with
  | nil =>
    intro st h
    unfold parseEventsLoop finalizeState at h
    split at h
    any_goals exact Except.noConfusion h
    exact unexpectedEof_ne_recursive _ (Except.error.inj h)
  | cons e rest ih =>
    intro st h
    unfold parseEventsLoop at h
    cases hs : step st e with
    | error er =>
      rw [hs] at h
      have := step_error st e er hs
      subst this
      exact absurd (Except.error.inj h) (by decide)
    | ok st' =>
      rw [hs] at h
      exact ih st' h

/- ### Claim theorems -/

/-- C1: for an input with a DOCTYPE block (`<!DOCTYPE` followed later by
`]>`), two or more `<!ENTITY` markers in the block make `parse_dmarc_xml`
fail with the recursive-entities error, while zero or one marker makes it
remove exactly the block and parse the remaining text. -/
theorem c1_doctype_entities (s : Str) (i j : Nat)
    (hd : findSubstr (chars "<!DOCTYPE") s = some i)
    (he : findSubstr (chars "]>") (s.drop i) = some j) :
    (2 ≤ countOcc (chars "<!ENTITY") ((s.drop i).take (j + 2)) →
      parse_dmarc_xml s = .error recursiveEntitiesErr) ∧
    (countOcc (chars "<!ENTITY") ((s.drop i).take (j + 2)) ≤ 1 →
      parse_dmarc_xml s = parseEvents (tokenize (s.take i ++ (s.drop i).drop (j + 2)))) := by
  have hclean : cleanDoctype s =
      if 2 ≤ countOcc (chars "<!ENTITY") ((s.drop i).take (j + 2)) then
        .error recursiveEntitiesErr
      else .ok (s.take i ++ (s.drop i).drop (j + 2)) := by
    unfold cleanDoctype
    rw [hd]
    dsimp only
    rw [he]
  constructor
  · intro h2
    unfold parse_dmarc_xml
    rw [hclean, if_pos h2]
  · intro h1
    unfold parse_dmarc_xml
    rw [hclean, if_neg (by omega)]

/-- C1 witness: a concrete two-entity DOCTYPE is rejected and a concrete
one-entity DOCTYPE is stripped, via `c1_doctype_entities`. -/
theorem c1_witness :
    parse_dmarc_xml (chars "<!DOCTYPE x [<!ENTITY a><!ENTITY b>]><f></f>") =
      .error recursiveEntitiesErr ∧
    parse_dmarc_xml (chars "<!DOCTYPE x [<!ENTITY a>]><f></f>") =
      parseEvents (tokenize (chars "" ++ (chars "<!DOCTYPE x [<!ENTITY a>]><f></f>").drop 26)) := by
  refine ⟨(c1_doctype_entities _ 0 35 (by decide) (by decide)).1 (by decide), ?_⟩
  have h := (c1_doctype_entities (chars "<!DOCTYPE x [<!ENTITY a>]><f></f>") 0 24
    (by decide) (by decide)).2 (by decide)
  simpa using h

/-- C10: when `<!DOCTYPE` occurs but no later `]>` terminates it, the input
is tokenized unmodified and the recursive-entities rejection cannot fire. -/
theorem c10_unterminated_doctype (s : Str) (i : Nat)
    (hd : findSubstr (chars "<!DOCTYPE") s = some i)
    (he : findSubstr (chars "]>") (s.drop i) = Option.none) :
    parse_dmarc_xml s = parseEvents (tokenize s) ∧
    parse_dmarc_xml s ≠ .error recursiveEntitiesErr := by
  have hclean : cleanDoctype s = .ok s := by
    unfold cleanDoctype
    rw [hd]
    dsimp only
    rw [he]
  have h1 : parse_dmarc_xml s = parseEvents (tokenize s) := by
    unfold parse_dmarc_xml
    rw [hclean]
  refine ⟨h1, ?_⟩
  rw [h1]
  exact parseEventsLoop_ne_recursive (tokenize s) initState

/-- C10 witness: a concrete unterminated DOCTYPE with many entities still
parses the raw text, via `c10_unterminated_doctype`. -/
theorem c10_witness :
    parse_dmarc_xml (chars "<f></f><!DOCTYPE x [<!ENTITY a><!ENTITY b>") =
      parseEvents (tokenize (chars "<f></f><!DOCTYPE x [<!ENTITY a><!ENTITY b>")) ∧
    parse_dmarc_xml (chars "<f></f><!DOCTYPE x [<!ENTITY a><!ENTITY b>") ≠
      .error recursiveEntitiesErr :=
  c10_unterminated_doctype _ 7 (by decide) (by decide)

/-- C5: the minimal valid document parses to exactly one record with the
claimed field values, the empty DKIM sequence, the default SPF result and
date range, and the all-default policy. -/
theorem c5_minimal_document :
    parse_dmarc_xml (chars "<feedback><record><source_ip>1.2.3.4</source_ip><count>1</count><header_from>example.com</header_from></record></feedback>") =
      .ok ([⟨chars "1.2.3.4", 1, ⟨[], .none, .none⟩, chars "example.com", Option.none, [],
            ⟨[], [], .none⟩, ⟨0, 0⟩⟩],
           ⟨[], .Relaxed, .Relaxed, .None, 100⟩) := by decide

/-- C8 counterexample: `<pct>200</pct>` parses successfully to `pct = 200`,
so the returned percentage does not lie in 0–100 (`pct` is only bounded by
the `u8` range). -/
theorem c8_counterexample :
    parse_dmarc_xml (chars "<feedback><policy_published><pct>200</pct></policy_published></feedback>") =
      .ok ([], ⟨[], .Relaxed, .Relaxed, .None, 200⟩) ∧ ¬(200 ≤ 100) := by decide

/-- C6 counterexample: input truncated inside `<source_ip>` of a second
record leaves a record open at end-of-input, and the parse fails with the
`read_text` end-of-input error instead of succeeding with the first,
closed record. -/
theorem c6_counterexample :
    parse_dmarc_xml (chars "<feedback><record></record><record><source_ip>") =
      .error (unexpectedEofErr (chars "source_ip")) ∧
    ∀ res, parse_dmarc_xml (chars "<feedback><record></record><record><source_ip>") ≠
      .ok res := by
  have h : parse_dmarc_xml (chars "<feedback><record></record><record><source_ip>") =
      .error (unexpectedEofErr (chars "source_ip")) := by decide
  refine ⟨h, fun res hres => ?_⟩
  rw [h] at hres
  exact Except.noConfusion hres

/-- C4 counterexample: a document of nesting depth 27 — all of it beyond
depth 2 sitting inside `<policy_published>`, whose sub-scan does no depth
bookkeeping — parses successfully, so exceeding the ceiling of 20 does not
imply the depth-limit failure. -/
theorem c4_counterexample :
    max_depth < maxNesting (tokenize deepPolicyDoc) ∧
    parse_dmarc_xml deepPolicyDoc = .ok ([], ⟨[], .Relaxed, .Relaxed, .None, 100⟩) := by decide

/-- C2 counterexample: an archive whose first entry fails the path-traversal
check and whose second entry exceeds the compression-ratio limit fails with
the traversal error, not the suspicious-compression-ratio error. -/
theorem c2_counterexample :
    (0 < (1 : Nat) ∧
      (⟨100, 1000, 10, 1000, 64⟩ : Config).max_compression_limit < Rat.divInt 5000 1) ∧
    extract_zip ⟨100, 1000, 10, 1000, 64⟩ 50
      [⟨chars "../e", 1, 1, []⟩, ⟨chars "b.xml", 1, 5000, []⟩] =
      .error (.pathTraversal (chars "../e")) ∧
    extract_zip ⟨100, 1000, 10, 1000, 64⟩ 50
      [⟨chars "../e", 1, 1, []⟩, ⟨chars "b.xml", 1, 5000, []⟩] ≠
      .error .suspiciousCompression := by decide

/-- C3 counterexample: an archive containing an entry named `../x` fails,
but with the filename-length error of an earlier entry rather than the
path-traversal error. -/
theorem c3_counterexample :
    hasTraversal (chars "../x") = true ∧
    extract_zip ⟨100, 1000, 10, 1000, 5⟩ 50
      [⟨chars "toolongname", 1, 1, []⟩, ⟨chars "../x", 1, 1, []⟩] =
      .error .filenameTooLong ∧
    ∀ n, extract_zip ⟨100, 1000, 10, 1000, 5⟩ 50
      [⟨chars "toolongname", 1, 1, []⟩, ⟨chars "../x", 1, 1, []⟩] ≠
      .error (.pathTraversal n) := by
  have h : extract_zip ⟨100, 1000, 10, 1000, 5⟩ 50
      [⟨chars "toolongname", 1, 1, []⟩, ⟨chars "../x", 1, 1, []⟩] =
      .error .filenameTooLong := by decide
  refine ⟨by decide, h, fun n hn => ?_⟩
  rw [h] at hn
  exact ExtractError.noConfusion (Except.error.inj hn)

/-- C9 counterexample: two entries each exactly at the decompressed-size
limit extract successfully even though the sum of their decompressed sizes
is twice the limit — the check is per entry, not over the total. -/
theorem c9_counterexample :
    ((⟨100, 10, 10, 1000, 64⟩ : Config).max_decompressed_size <
      (([⟨chars "a.xml", 10, 10, chars "AAAAAAAAAA"⟩,
         ⟨chars "b.xml", 10, 10, chars "BBBBBBBBBB"⟩] : List ZipEntry).map
        (fun e => e.uncompressed_size)).sum) ∧
    extract_zip ⟨100, 10, 10, 1000, 64⟩ 50
      [⟨chars "a.xml", 10, 10, chars "AAAAAAAAAA"⟩,
       ⟨chars "b.xml", 10, 10, chars "BBBBBBBBBB"⟩] =
      .ok [chars "AAAAAAAAAA", chars "BBBBBBBBBB"] := by decide

/-- An entry failing any of the four per-entry checks prevents the entry
loop from ever succeeding: either an earlier entry already fails some
check, or this entry is reached and its own failing check fires. -/
theorem extractEntries_ne_ok_of_bad (cfg : Config) (entries : List ZipEntry) (e : ZipEntry)
    (he : e ∈ entries)
    (hbad : hasTraversal e.name = true ∨ cfg.max_filename_length < e.name.length ∨
      (0 < e.compressed_size ∧
        cfg.max_compression_limit < Rat.divInt e.uncompressed_size e.compressed_size) ∨
      cfg.max_decompressed_size < e.uncompressed_size) :
    ∀ out, extractEntries cfg entries ≠ .ok out := by
  induction entries with
  | nil => cases he
  | cons a rest ih =>
    intro out hok
    unfold extractEntries at hok
    rcases List.mem_cons.mp he with rfl | hmem
    · split_ifs at hok with h1 h2 h3 h4
      rcases hbad with hb | hb | hb | hb
      · exact h1 hb
      · exact h2 hb
      · exact h3 hb
      · exact h4 hb
    · split_ifs at hok
      cases hrec : extractEntries cfg rest with
      | error er => rw [hrec] at hok; exact Except.noConfusion hok
      | ok rs => exact ih hmem rs hrec

/-- Lifting of `extractEntries_ne_ok_of_bad` through the archive-level
checks of `extract_zip`. -/
theorem extract_zip_ne_ok_of_bad (cfg : Config) (fs : Nat) (entries : List ZipEntry)
    (e : ZipEntry) (he : e ∈ entries)
    (hbad : hasTraversal e.name = true ∨ cfg.max_filename_length < e.name.length ∨
      (0 < e.compressed_size ∧
        cfg.max_compression_limit < Rat.divInt e.uncompressed_size e.compressed_size) ∨
      cfg.max_decompressed_size < e.uncompressed_size) :
    ∀ out, extract_zip cfg fs entries ≠ .ok out := by
  intro out hok
  unfold extract_zip at hok
  split_ifs at hok
  exact extractEntries_ne_ok_of_bad cfg entries e he hbad out hok

/-- C3 amended: an archive containing an entry whose stored name contains
`..` or begins with a path separator never extracts successfully; and when
such an entry is the first one an entry-level check rejects, the failure is
the path-traversal `Format` error, regardless of the entry's sizes and
content (its name check runs before every other per-entry check). -/
theorem c3_traversal_amended :
    (∀ (cfg : Config) (fs : Nat) (entries : List ZipEntry) (e : ZipEntry),
        e ∈ entries → hasTraversal e.name = true →
        ∀ out, extract_zip cfg fs entries ≠ .ok out) ∧
    (∀ (cfg : Config) (e : ZipEntry) (rest : List ZipEntry),
        hasTraversal e.name = true →
        extractEntries cfg (e :: rest) = .error (.pathTraversal e.name)) := by
  constructor
  · intro cfg fs entries e he hb out
    exact extract_zip_ne_ok_of_bad cfg fs entries e he (Or.inl hb) out
  · intro cfg e rest hb
    unfold extractEntries
    rw [if_pos hb]

/-- C3 witness: instances of both parts of `c3_traversal_amended` at
concrete archives. -/
theorem c3_witness :
    (∀ out, extract_zip ⟨100, 1000, 10, 1000, 64⟩ 50
      [⟨chars "ok.xml", 1, 1, []⟩, ⟨chars "/abs", 1, 1, []⟩] ≠ .ok out) ∧
    extractEntries ⟨100, 1000, 10, 1000, 64⟩ [⟨chars "..", 1, 1, chars "payload"⟩] =
      .error (.pathTraversal (chars "..")) :=
  ⟨fun out => c3_traversal_amended.1 ⟨100, 1000, 10, 1000, 64⟩ 50
      [⟨chars "ok.xml", 1, 1, []⟩, ⟨chars "/abs", 1, 1, []⟩] ⟨chars "/abs", 1, 1, []⟩
      (by decide) (by decide) out,
   c3_traversal_amended.2 ⟨100, 1000, 10, 1000, 64⟩ ⟨chars "..", 1, 1, chars "payload"⟩ []
      (by decide)⟩

/-- C2 amended: an entry with positive compressed size whose exact
uncompressed/compressed ratio exceeds the limit means extraction never
succeeds (so none of its decompressed bytes reach any output); when such an
entry is reached with its name checks passing, the failure is the
suspicious-compression-ratio error, for every possible content of the entry
(its bytes are never read); and an entry with compressed size 0 skips the
ratio check entirely, leaving only the uncompressed-size-vs-limit check. -/
theorem c2_ratio_amended :
    (∀ (cfg : Config) (fs : Nat) (entries : List ZipEntry) (e : ZipEntry),
        e ∈ entries → 0 < e.compressed_size →
        cfg.max_compression_limit < Rat.divInt e.uncompressed_size e.compressed_size →
        ∀ out, extract_zip cfg fs entries ≠ .ok out) ∧
    (∀ (cfg : Config) (e : ZipEntry) (rest : List ZipEntry) (c : Str),
        hasTraversal e.name = false → e.name.length ≤ cfg.max_filename_length →
        0 < e.compressed_size →
        cfg.max_compression_limit < Rat.divInt e.uncompressed_size e.compressed_size →
        extractEntries cfg ({ e with content := c } :: rest) =
          .error .suspiciousCompression) ∧
    (∀ (cfg : Config) (e : ZipEntry) (rest : List ZipEntry),
        hasTraversal e.name = false → e.name.length ≤ cfg.max_filename_length →
        e.compressed_size = 0 →
        extractEntries cfg (e :: rest) =
          if cfg.max_decompressed_size < e.uncompressed_size then
            .error (.fileTooLarge (chars "Total decompressed size too large"))
          else
            match extractEntries cfg rest with
            | .error er => .error er
            | .ok rs => .ok (e.content :: rs)) := by
  refine ⟨?_, ?_, ?_⟩
  · intro cfg fs entries e he hc hr out
    exact extract_zip_ne_ok_of_bad cfg fs entries e he (Or.inr (Or.inr (Or.inl ⟨hc, hr⟩))) out
  · intro cfg e rest c h1 h2 h3 h4
    unfold extractEntries
    dsimp only
    rw [if_neg (by simp [h1]), if_neg (Nat.not_lt.mpr h2), if_pos ⟨h3, h4⟩]
  · intro cfg e rest h1 h2 h3
    conv_lhs => unfold extractEntries
    rw [if_neg (by simp [h1]), if_neg (Nat.not_lt.mpr h2),
      if_neg (by rw [h3]; rintro ⟨hc, -⟩; exact absurd hc (by decide))]

/-- C2 witness: instances of the three parts of `c2_ratio_amended` at
concrete entries. -/
theorem c2_witness :
    (∀ out, extract_zip ⟨100, 1000, 10, 1000, 64⟩ 50
      [⟨chars "a.xml", 1, 5000, chars "boom"⟩] ≠ .ok out) ∧
    extractEntries ⟨100, 1000, 10, 1000, 64⟩
      [{ (⟨chars "a.xml", 1, 5000, []⟩ : ZipEntry) with content := chars "any bytes" }] =
      .error .suspiciousCompression ∧
    extractEntries ⟨100, 1000, 10, 1000, 64⟩ [⟨chars "stored.xml", 0, 5000, []⟩] =
      if (⟨100, 1000, 10, 1000, 64⟩ : Config).max_decompressed_size < 5000 then
        .error (.fileTooLarge (chars "Total decompressed size too large"))
      else
        match extractEntries ⟨100, 1000, 10, 1000, 64⟩ [] with
        | .error er => .error er
        | .ok rs => .ok (chars "" :: rs) :=
  ⟨fun out => c2_ratio_amended.1 ⟨100, 1000, 10, 1000, 64⟩ 50
      [⟨chars "a.xml", 1, 5000, chars "boom"⟩] ⟨chars "a.xml", 1, 5000, chars "boom"⟩
      (by decide) (by decide) (by decide) out,
   c2_ratio_amended.2.1 ⟨100, 1000, 10, 1000, 64⟩ ⟨chars "a.xml", 1, 5000, []⟩ []
      (chars "any bytes") (by decide) (by decide) (by decide) (by decide),
   c2_ratio_amended.2.2 ⟨100, 1000, 10, 1000, 64⟩ ⟨chars "stored.xml", 0, 5000, []⟩ []
      (by decide) (by decide) (by decide)⟩

/-- C9 amended: the decompressed-size bound is enforced per entry — an entry
whose declared uncompressed size exceeds `max_decompressed_size` prevents
successful extraction, and when reached with its earlier checks passing it
fails with the `FileTooLarge` error; the sum of entry sizes is never
bounded (see the counterexample). -/
theorem c9_per_entry_amended :
    (∀ (cfg : Config) (fs : Nat) (entries : List ZipEntry) (e : ZipEntry),
        e ∈ entries → cfg.max_decompressed_size < e.uncompressed_size →
        ∀ out, extract_zip cfg fs entries ≠ .ok out) ∧
    (∀ (cfg : Config) (e : ZipEntry) (rest : List ZipEntry),
        hasTraversal e.name = false → e.name.length ≤ cfg.max_filename_length →
        (e.compressed_size = 0 ∨
          Rat.divInt e.uncompressed_size e.compressed_size ≤ cfg.max_compression_limit) →
        cfg.max_decompressed_size < e.uncompressed_size →
        extractEntries cfg (e :: rest) =
          .error (.fileTooLarge (chars "Total decompressed size too large"))) := by
  constructor
  · intro cfg fs entries e he hs out
    exact extract_zip_ne_ok_of_bad cfg fs entries e he (Or.inr (Or.inr (Or.inr hs))) out
  · intro cfg e rest h1 h2 h3 h4
    unfold extractEntries
    rw [if_neg (by simp [h1]), if_neg (Nat.not_lt.mpr h2), if_neg ?_, if_pos h4]
    rintro ⟨hc, hr⟩
    rcases h3 with h3 | h3
    · rw [h3] at hc
      exact absurd hc (by decide)
    · exact absurd hr (not_lt.mpr h3)

/-- C9 witness: instances of both parts of `c9_per_entry_amended` at
concrete entries. -/
theorem c9_witness :
    (∀ out, extract_zip ⟨100, 10, 10, 1000, 64⟩ 50
      [⟨chars "a.xml", 10, 11, chars "AAAAAAAAAAA"⟩] ≠ .ok out) ∧
    extractEntries ⟨100, 10, 10, 1000, 64⟩ [⟨chars "a.xml", 10, 11, chars "AAAAAAAAAAA"⟩] =
      .error (.fileTooLarge (chars "Total decompressed size too large")) :=
  ⟨fun out => c9_per_entry_amended.1 ⟨100, 10, 10, 1000, 64⟩ 50
      [⟨chars "a.xml", 10, 11, chars "AAAAAAAAAAA"⟩] ⟨chars "a.xml", 10, 11, chars "AAAAAAAAAAA"⟩
      (by decide) (by decide) out,
   c9_per_entry_amended.2 ⟨100, 10, 10, 1000, 64⟩ ⟨chars "a.xml", 10, 11, chars "AAAAAAAAAAA"⟩ []
      (by decide) (by decide) (Or.inr (by decide)) (by decide)⟩

/-- On streams of events the main loop handles generically, the loop is
exactly the claimed depth discipline: it fails with the depth-limit error
precisely when the running counter (increment per start tag, saturating
decrement per end tag) passes the ceiling, and otherwise succeeds with the
state's records and policy. -/
theorem parseEventsLoop_generic (evs : List XmlEvent) :
    ∀ st : PState, st.mode = .main → evs.all genericEvent = true →
      parseEventsLoop evs st =
        if depthExceedsFrom st.depth evs then .error depthLimitErr
        else .ok (st.records, st.policy) := by
  induction evs with
  | nil =>
    intro st hm _
    unfold parseEventsLoop finalizeState depthExceedsFrom
    rw [hm]
    rfl
  | cons e rest ih =>
    intro st hm hall
    rw [List.all_cons, Bool.and_eq_true] at hall
    obtain ⟨hge, hrest⟩ := hall
    cases e with
    | start n =>
      simp only [genericEvent, Bool.and_eq_true, Bool.not_eq_true',
        decide_eq_false_iff_not] at hge
      obtain ⟨⟨⟨⟨⟨⟨hn1, hn2⟩, hn3⟩, hn4⟩, hn5⟩, hn6⟩, hn7⟩ := hge
      unfold parseEventsLoop step
      rw [hm]
      dsimp only
      have hde : depthExceedsFrom st.depth (XmlEvent.start n :: rest) =
          if max_depth < st.depth + 1 then true else depthExceedsFrom (st.depth + 1) rest := rfl
      by_cases hd : max_depth < st.depth + 1
      · rw [if_pos hd, hde, if_pos hd]
        rfl
      · rw [if_neg hd, if_neg hn1, if_neg hn2, if_neg hn3, if_neg hn4, if_neg hn5,
          if_neg hn6, if_neg hn7]
        dsimp only
        rw [ih _ (by simp [hm]) hrest, hde, if_neg hd]
    | endTag n =>
      simp only [genericEvent, Bool.not_eq_true', decide_eq_false_iff_not] at hge
      unfold parseEventsLoop step
      rw [hm]
      dsimp only
      rw [if_neg hge]
      dsimp only
      rw [ih _ (by simp [hm]) hrest,
        show depthExceedsFrom st.depth (XmlEvent.endTag n :: rest) =
          depthExceedsFrom (st.depth - 1) rest from rfl]
    | text t =>
      unfold parseEventsLoop step
      rw [hm]
      dsimp only
      rw [ih st hm hrest,
        show depthExceedsFrom st.depth (XmlEvent.text t :: rest) =
          depthExceedsFrom st.depth rest from rfl]
    | selfClose n =>
      unfold parseEventsLoop step
      rw [hm]
      dsimp only
      rw [ih st hm hrest,
        show depthExceedsFrom st.depth (XmlEvent.selfClose n :: rest) =
          depthExceedsFrom st.depth rest from rfl]

/-- C4 amended: the main scan's depth counter is incremented at every start
tag the main loop handles and the scan stops with the depth-limit error as
soon as the counter would pass 20 — it never continues past such a state
(part 1); on event streams handled entirely by the main loop the scan is
exactly the claimed discipline: increment per start tag, saturating
decrement per end tag, failure iff the counter passes the ceiling (part 2).
Tags consumed by the `policy_published`/`dkim`/`spf` sub-scans and the end
tags of leaf text fields bypass the counter, so an input whose true nesting
depth exceeds 20 need not fail (see the counterexample). -/
theorem c4_depth_amended :
    (∀ (st : PState) (n : Str) (rest : List XmlEvent),
        st.mode = .main → max_depth ≤ st.depth →
        parseEventsLoop (.start n :: rest) st = .error depthLimitErr) ∧
    (∀ (evs : List XmlEvent) (st : PState),
        st.mode = .main → evs.all genericEvent = true →
        parseEventsLoop evs st =
          if depthExceedsFrom st.depth evs then .error depthLimitErr
          else .ok (st.records, st.policy)) := by
  constructor
  · intro st n rest hm hd
    have hs : step st (.start n) = .error depthLimitErr := by
      unfold step
      rw [hm]
      dsimp only
      rw [if_pos (by omega)]
    unfold parseEventsLoop
    rw [hs]
  · exact parseEventsLoop_generic

/-- C4 witness: instances of both parts of `c4_depth_amended` — a start tag
at depth 20 aborts immediately, and a generic two-event stream follows the
depth discipline. -/
theorem c4_witness :
    parseEventsLoop [.start (chars "x")] ⟨[], initPolicy, Option.none, 20, .main⟩ =
      .error depthLimitErr ∧
    parseEventsLoop [.start (chars "a"), .endTag (chars "a")] initState =
      (if depthExceedsFrom initState.depth [.start (chars "a"), .endTag (chars "a")] then
        .error depthLimitErr
      else .ok (initState.records, initState.policy)) :=
  ⟨c4_depth_amended.1 ⟨[], initPolicy, Option.none, 20, .main⟩ (chars "x") [] rfl (by decide),
   c4_depth_amended.2 [.start (chars "a"), .endTag (chars "a")] initState rfl (by decide)⟩

/-- C6 amended: a record is appended to the output exactly at a `</record>`
end tag seen by the main loop — in document order, at the tail of the
accumulated list (parts 2 and 3) — and a record still open when end-of-input
is reached at the top of the main loop is discarded silently with the parse
succeeding (part 1). End-of-input in the middle of reading a leaf field's
text is instead a tokenizer error (see the counterexample), so truncation is
tolerated only at event boundaries of the main loop. -/
theorem c6_record_lifecycle_amended :
    (∀ (records : List DmarcRecord) (policy : DmarcPolicy) (current : Option DmarcRecord)
        (depth : Nat),
        parseEventsLoop [] ⟨records, policy, current, depth, .main⟩ = .ok (records, policy)) ∧
    (∀ (st : PState) (r : DmarcRecord) (rest : List XmlEvent),
        st.mode = .main → st.current = some r →
        parseEventsLoop (.endTag (chars "record") :: rest) st =
          parseEventsLoop rest
            { st with
              records := st.records ++ [r]
              current := Option.none
              depth := st.depth - 1 }) ∧
    (∀ (st : PState) (rest : List XmlEvent),
        st.mode = .main → st.current = Option.none →
        parseEventsLoop (.endTag (chars "record") :: rest) st =
          parseEventsLoop rest { st with depth := st.depth - 1 }) := by
  refine ⟨?_, ?_, ?_⟩
  · intro records policy current depth
    rfl
  · intro st r rest hm hc
    have hs : step st (.endTag (chars "record")) =
        .ok { st with
              records := st.records ++ [r]
              current := Option.none
              depth := st.depth - 1 } := by
      unfold step
      rw [hm]
      dsimp only
      rw [if_pos rfl, hc]
    conv_lhs => unfold parseEventsLoop
    rw [hs]
  · intro st rest hm hc
    have hs : step st (.endTag (chars "record")) = .ok { st with depth := st.depth - 1 } := by
      unfold step
      rw [hm]
      dsimp only
      rw [if_pos rfl, hc]
    conv_lhs => unfold parseEventsLoop
    rw [hs]

/-- C6 witness: instances of the three parts of `c6_record_lifecycle_amended`
at concrete states — end-of-input with an open record succeeds with the
already-closed records, and a `</record>` end tag commits the open record at
the tail of the output. -/
theorem c6_witness :
    parseEventsLoop [] (⟨[newRecord], initPolicy, some newRecord, 5, .main⟩ : PState) =
      .ok ([newRecord], initPolicy) ∧
    parseEventsLoop [.endTag (chars "record")]
        (⟨[], initPolicy, some newRecord, 3, .main⟩ : PState) =
      parseEventsLoop [] (⟨[newRecord], initPolicy, Option.none, 2, .main⟩ : PState) ∧
    parseEventsLoop [.endTag (chars "record")]
        (⟨[], initPolicy, Option.none, 3, .main⟩ : PState) =
      parseEventsLoop [] (⟨[], initPolicy, Option.none, 2, .main⟩ : PState) :=
  ⟨c6_record_lifecycle_amended.1 [newRecord] initPolicy (some newRecord) 5,
   c6_record_lifecycle_amended.2.1 ⟨[], initPolicy, some newRecord, 3, .main⟩ newRecord [] rfl rfl,
   c6_record_lifecycle_amended.2.2 ⟨[], initPolicy, Option.none, 3, .main⟩ [] rfl rfl⟩

/-- C7: in a document with one record whose `<count>` text fails the `u32`
parse and whose `<dkim>`/`<spf>` `<result>` texts are outside the closed
verdict set, the parse still succeeds, the count defaults to 0, and both
verdicts default to `none` — the malformed fields never abort the parse. -/
theorem c7_lenient_fields (s1 s2 s3 : Str)
    (h1 : parse_u32 (trimStr s1) = Option.none)
    (h2 : dkimVerdictFromStr (trimStr s2) = Option.none)
    (h3 : spfVerdictFromStr (trimStr s3) = Option.none) :
    parseEvents (c7events s1 s2 s3) = .ok ([c7record], ⟨[], .Relaxed, .Relaxed, .None, 100⟩) := by
  simp +decide [parseEvents, c7events, parseEventsLoop, step, finalizeState, initState,
    initPolicy, max_depth, deliverText, updateRecordField, updateDkimField, updateSpfField,
    newRecord, c7record, h1, h2, h3]

/-- C7 witness: `c7_lenient_fields` at concrete malformed texts. -/
theorem c7_witness :
    parseEvents (c7events (chars "abc") (chars "bogus") (chars "zzz")) =
      .ok ([c7record], ⟨[], .Relaxed, .Relaxed, .None, 100⟩) :=
  c7_lenient_fields (chars "abc") (chars "bogus") (chars "zzz")
    (by decide) (by decide) (by decide)

/-- Delivering a `read_text` result preserves the `pct` invariant: the only
field assignment that touches `pct` is `text.parse::<u8>().unwrap_or(100)`,
which is `u8`-ranged. -/
theorem deliverText_pctInv (st : PState) (raw : Str) (ret : TextRet)
    (h1 : st.policy.pct ≤ 255)
    (h2 : ∀ acc f, ret = .toPolicy acc f → acc.pct ≤ 255) :
    pctInv (deliverText st raw ret) := by
  cases ret with
  | toRecord f => exact ⟨h1, by simp [deliverText, polAccPct]⟩
  | toPolicy acc f =>
    have hacc := h2 acc f rfl
    refine ⟨h1, ?_⟩
    cases f <;>
      simp [deliverText, polAccPct, retPct, updatePolicyField, hacc]
    exact pct_value_le _
  | toDkim acc f => exact ⟨h1, by simp [deliverText, polAccPct]⟩
  | toSpf acc f => exact ⟨h1, by simp [deliverText, polAccPct]⟩

/-- Every step of the event loop preserves the `pct` invariant. -/
theorem step_pctInv (st : PState) (e : XmlEvent) (st' : PState)
    (hinv : pctInv st) (hs : step st e = .ok st') : pctInv st' := by
  obtain ⟨h1, h2⟩ := hinv
  unfold step at hs
  dsimp only at hs
  repeat' split at hs
  all_goals cases hs
  all_goals first
    | (refine ⟨h1, ?_⟩; simp_all [polAccPct, retPct, initPolicy])
    | (refine deliverText_pctInv _ _ _ h1 ?_; intro acc f hret; subst hret;
       simp_all [polAccPct, retPct])
    | (refine ⟨?_, ?_⟩ <;> simp_all [polAccPct, retPct])

/-- Any successful run of the event loop from a `pct`-invariant state
returns a policy whose `pct` is in the `u8` range. -/
theorem parseEventsLoop_pct (evs : List XmlEvent) :
    ∀ (st : PState) (res : List DmarcRecord × DmarcPolicy),
      pctInv st → parseEventsLoop evs st = .ok res → res.2.pct ≤ 255 := by
  induction evs with
  | nil =>
    intro st res hinv h
    unfold parseEventsLoop finalizeState at h
    split at h
    · cases h
      exact hinv.1
    · cases h
      rename_i heq
      have h2 := hinv.2
      rw [heq] at h2
      simpa [polAccPct] using h2
    · cases h
      exact hinv.1
    · cases h
      exact hinv.1
    · exact Except.noConfusion h
  | cons e rest ih =>
    intro st res hinv h
    unfold parseEventsLoop at h
    cases hs : step st e with
    | error er =>
      rw [hs] at h
      exact Except.noConfusion h
    | ok st2 =>
      rw [hs] at h
      exact ih st2 res (step_pctInv st e st2 hinv hs) h

/-- C8 amended: every policy returned by an accepted parse has `pct` in the
`u8` range 0–255 (part 1; values 101–255 do occur, see the counterexample),
and `pct` is exactly 100 when the `<pct>` element is absent (part 2) or its
trimmed text fails the `u8` parse (part 3). -/
theorem c8_pct_amended :
    (∀ (s : Str) (res : List DmarcRecord × DmarcPolicy),
        parse_dmarc_xml s = .ok res → res.2.pct ≤ 255) ∧
    (parseEvents [.start (chars "policy_published"), .endTag (chars "policy_published")] =
      .ok ([], ⟨[], .Relaxed, .Relaxed, .None, 100⟩)) ∧
    (∀ t : Str, parse_u8 (trimStr t) = Option.none →
      parseEvents [.start (chars "policy_published"), .start (chars "pct"), .text t,
        .endTag (chars "pct"), .endTag (chars "policy_published")] =
        .ok ([], ⟨[], .Relaxed, .Relaxed, .None, 100⟩)) := by
  refine ⟨?_, by decide, ?_⟩
  · intro s res h
    unfold parse_dmarc_xml at h
    cases hc : cleanDoctype s with
    | error er =>
      rw [hc] at h
      exact Except.noConfusion h
    | ok t =>
      rw [hc] at h
      exact parseEventsLoop_pct (tokenize t) initState res
        ⟨by decide, by decide⟩ h
  · intro t ht
    simp +decide [parseEvents, parseEventsLoop, step, finalizeState, initState, initPolicy,
      max_depth, deliverText, updatePolicyField, ht]

/-- C8 witness: the range bound applied to a concrete accepted parse, and
the unparseable-`pct` default at a concrete malformed text. -/
theorem c8_witness :
    ((([], ⟨[], .Relaxed, .Relaxed, .None, 100⟩) :
        List DmarcRecord × DmarcPolicy).2.pct ≤ 255) ∧
    parseEvents [.start (chars "policy_published"), .start (chars "pct"),
        .text (chars "many"), .endTag (chars "pct"), .endTag (chars "policy_published")] =
      .ok ([], ⟨[], .Relaxed, .Relaxed, .None, 100⟩) :=
  ⟨c8_pct_amended.1 (chars "<a></a>") ([], ⟨[], .Relaxed, .Relaxed, .None, 100⟩) (by decide),
   c8_pct_amended.2.2 (chars "many") (by decide)⟩
